import Mathlib

/-!
Verification development for the `ai_tester` repository (TestFoundry).

The Python sources under `src/ai_tester/` are shallowly embedded here:
pure functions become Lean functions, Python exceptions become `Except PyErr`,
Python values (the dynamic values flowing through tool arguments, JSON
parsing and tool results) become the inductive type `PyVal`, and I/O effects
(file reads, subprocess runs, artifact saves) are passed in explicitly as a
`World` record of outcomes.  Python float arithmetic is modelled as exact
rational arithmetic with Python's truncation (`int(...)`) and
round-half-to-even (`round(..., 6)`) semantics; exception message texts are
abbreviated where the exact wording is immaterial.
-/

namespace AiTester

/-- Python exceptions, as far as the embedded code distinguishes them. -/
inductive PyErr where
  | typeError (msg : List Char)
  | valueError (msg : List Char)
  | attributeError (msg : List Char)
  | keyError (msg : List Char)
  | runtimeError (msg : List Char)
  | osError (msg : List Char)
  deriving DecidableEq, Repr

/-- Python runtime values, restricted to the shapes that flow through
`json.loads`, tool arguments and tool results in `tools.py` / `llm.py`.
Floats are modelled as exact rationals. -/
inductive PyVal where
  | none
  | bool (b : Bool)
  | int (n : ℤ)
  | float (q : ℚ)
  | str (s : List Char)
  | list (xs : List PyVal)
  | dict (kvs : List (List Char × PyVal))

/-- Python truthiness (`if not parsed:` etc.). -/
def pyTruthy : PyVal → Bool
  | .none => false
  | .bool b => b
  | .int n => n ≠ 0
  | .float q => q ≠ 0
  | .str s => ¬ s.isEmpty
  | .list xs => ¬ xs.isEmpty
  | .dict kvs => ¬ kvs.isEmpty

/-- Lookup in an association list modelling a Python dict.  Later bindings
shadow earlier ones (Python dicts keep the last value for a duplicated key),
hence the lookup scans from the right. -/
def dictGet? (kvs : List (List Char × PyVal)) (k : List Char) : Option PyVal :=
  (kvs.reverse.find? (fun p => p.1 = k)).map (·.2)

/-- `d.get(k, default)` on a Python dict. -/
def dictGetD (kvs : List (List Char × PyVal)) (k : List Char) (d : PyVal) : PyVal :=
  (dictGet? kvs k).getD d

/-- Does a character pattern occur contiguously inside a character list?
(Python `"needle" in haystack` on strings.) -/
def segOccurs (pat : List Char) : List Char → Bool
  | [] => pat.isEmpty
  | c :: rest => pat.isPrefixOf (c :: rest) || segOccurs pat rest

/-- Python `key in container` where `key` is a string: membership for dicts,
element equality for lists, substring test for strings, and a `TypeError`
for values that are not containers (`int`, `float`, `bool`, `None`). -/
def pyContains (v : PyVal) (k : List Char) : Except PyErr Bool :=
  match v with
  | .dict kvs => .ok (kvs.any (fun p => p.1 = k))
  | .list xs => .ok (xs.any (fun x => match x with | .str s => s = k | _ => false))
  | .str s => .ok (segOccurs k s)
  | _ => .error (.typeError "argument is not iterable".toList)

/-- Python `container[key]` with a string key: dict lookup; lists and strings
raise `TypeError` (their indices must be integers); scalars raise too. -/
def pySubscript (v : PyVal) (k : List Char) : Except PyErr PyVal :=
  match v with
  | .dict kvs =>
    match dictGet? kvs k with
    | some x => .ok x
    | Option.none => .error (.keyError k)
  | _ => .error (.typeError k)

/-- Python `a or b`. -/
def pyOr (a b : PyVal) : PyVal := if pyTruthy a then a else b

/-- Python hashability of the embedded values: lists and dicts are
unhashable (using one as a dict key, e.g. in a membership test, raises
`TypeError: unhashable type`); `None`, booleans, numbers and strings are
hashable. -/
def pyHashable : PyVal → Bool
  | .list _ => false
  | .dict _ => false
  | _ => true

/-- JSON whitespace accepted by `json.loads` between tokens. -/
def isJsonWs (c : Char) : Bool :=
  c = ' ' || c = '\t' || c = '\n' || c = '\r'

def skipWs (s : List Char) : List Char := s.dropWhile isJsonWs

/-- Whitespace stripped by Python `str.strip()`. -/
def isPyWs (c : Char) : Bool :=
  c = ' ' || c = '\t' || c = '\n' || c = '\r' || c = '\x0b' || c = '\x0c'

def pyStrip (s : List Char) : List Char :=
  ((s.dropWhile isPyWs).reverse.dropWhile isPyWs).reverse

def isDigitCh (c : Char) : Bool := '0' ≤ c && c ≤ '9'

def digitVal (c : Char) : ℕ := c.toNat - '0'.toNat

/-- Parse a run of decimal digits, returning the digits and the rest. -/
def takeDigits (s : List Char) : List Char × List Char :=
  (s.takeWhile isDigitCh, s.dropWhile isDigitCh)

def digitsToNat (ds : List Char) : ℕ :=
  ds.foldl (fun acc c => acc * 10 + digitVal c) 0

/-- JSON number grammar, as in CPython's `json` lexer regex
`(-?(?:0|[1-9]\d*))(\.\d+)?([eE][-+]?\d+)?`: the longest match is consumed
and anything after it is left for the caller (so `1.` lexes as `1` followed
by `.`).  Integers (no fraction, no exponent) load as Python `int`,
everything else as `float` (modelled exactly as a rational). -/
def parseJsonNumber (s : List Char) : Option (PyVal × List Char) :=
  let (neg, s1) : Bool × List Char := match s with
    | '-' :: r => (true, r)
    | r => (false, r)
  match takeDigits s1 with
  | ([], _) => Option.none
  | (d :: ds, rest) =>
    if d = '0' ∧ ds ≠ [] then Option.none
    else
      let intPart : ℕ := digitsToNat (d :: ds)
      let (fracDigits, rest2) : List Char × List Char := match rest with
        | '.' :: r =>
          match takeDigits r with
          | ([], _) => ([], rest)
          | (fs, r2) => (fs, r2)
        | _ => ([], rest)
      let (expVal, rest3) : ℤ × List Char := match rest2 with
        | 'e' :: r => match (match r with
            | '+' :: rr => ((1 : ℤ), rr)
            | '-' :: rr => ((-1 : ℤ), rr)
            | rr => ((1 : ℤ), rr)) with
          | (sg, r1) => match takeDigits r1 with
            | ([], _) => ((0 : ℤ), rest2)
            | (es, r2) => (sg * (digitsToNat es : ℤ), r2)
        | 'E' :: r => match (match r with
            | '+' :: rr => ((1 : ℤ), rr)
            | '-' :: rr => ((-1 : ℤ), rr)
            | rr => ((1 : ℤ), rr)) with
          | (sg, r1) => match takeDigits r1 with
            | ([], _) => ((0 : ℤ), rest2)
            | (es, r2) => (sg * (digitsToNat es : ℤ), r2)
        | _ => ((0 : ℤ), rest2)
      if fracDigits = [] ∧ rest3 = rest then
        some (.int (if neg then -(intPart : ℤ) else (intPart : ℤ)), rest)
      else
        let mag : ℚ :=
          ((intPart : ℚ) + (digitsToNat fracDigits : ℚ) / (10 : ℚ) ^ fracDigits.length)
            * (10 : ℚ) ^ expVal
        some (.float (if neg then -mag else mag), rest3)

def hexVal? (c : Char) : Option ℕ :=
  if isDigitCh c then some (digitVal c)
  else if 'a' ≤ c && c ≤ 'f' then some (c.toNat - 'a'.toNat + 10)
  else if 'A' ≤ c && c ≤ 'F' then some (c.toNat - 'A'.toNat + 10)
  else Option.none

/-- Body of a JSON string, after the opening quote.  Handles the standard
escapes; raw control characters are rejected (strict `json.loads`). -/
def parseJsonStringBody : List Char → Option (List Char × List Char)
  | [] => Option.none
  | '"' :: rest => some ([], rest)
  | '\\' :: e :: rest =>
    let simple : Option Char := match e with
      | '"' => some '"'
      | '\\' => some '\\'
      | '/' => some '/'
      | 'b' => some '\x08'
      | 'f' => some '\x0c'
      | 'n' => some '\n'
      | 'r' => some '\r'
      | 't' => some '\t'
      | _ => Option.none
    match simple with
    | some c =>
      match parseJsonStringBody rest with
      | some (cs, r) => some (c :: cs, r)
      | Option.none => Option.none
    | Option.none =>
      if e = 'u' then
        match rest with
        | h1 :: h2 :: h3 :: h4 :: rest2 =>
          match hexVal? h1, hexVal? h2, hexVal? h3, hexVal? h4 with
          | some a, some b, some c, some d =>
            let code := ((a * 16 + b) * 16 + c) * 16 + d
            match parseJsonStringBody rest2 with
            | some (cs, r) => some (Char.ofNat code :: cs, r)
            | Option.none => Option.none
          | _, _, _, _ => Option.none
        | _ => Option.none
      else Option.none
  | c :: rest =>
    if c.toNat < 32 then Option.none
    else
      match parseJsonStringBody rest with
      | some (cs, r) => some (c :: cs, r)
      | Option.none => Option.none

mutual

/-- One JSON value (leading whitespace already skipped); fuel-indexed
recursive-descent parser modelling `json.loads`. -/
def parseJsonVal : ℕ → List Char → Option (PyVal × List Char)
  | 0, _ => Option.none
  | _ + 1, [] => Option.none
  | fuel + 1, c :: rest =>
    if c = 'n' then
      match rest with
      | 'u' :: 'l' :: 'l' :: r => some (.none, r)
      | _ => Option.none
    else if c = 't' then
      match rest with
      | 'r' :: 'u' :: 'e' :: r => some (.bool true, r)
      | _ => Option.none
    else if c = 'f' then
      match rest with
      | 'a' :: 'l' :: 's' :: 'e' :: r => some (.bool false, r)
      | _ => Option.none
    else if c = '"' then
      match parseJsonStringBody rest with
      | some (s, r) => some (.str s, r)
      | Option.none => Option.none
    else if c = '\x7b' then
      match skipWs rest with
      | '\x7d' :: r => some (.dict [], r)
      | r2 => parseJsonMembers fuel r2
    else if c = '[' then
      match skipWs rest with
      | ']' :: r => some (.list [], r)
      | r2 => parseJsonItems fuel r2
    else if c = '-' ∨ isDigitCh c then
      parseJsonNumber (c :: rest)
    else Option.none

/-- Members of a JSON object, positioned at the first key. -/
def parseJsonMembers : ℕ → List Char → Option (PyVal × List Char)
  | 0, _ => Option.none
  | fuel + 1, s =>
    match s with
    | '"' :: rest =>
      match parseJsonStringBody rest with
      | some (key, r1) =>
        match skipWs r1 with
        | ':' :: r2 =>
          match parseJsonVal fuel (skipWs r2) with
          | some (v, r3) =>
            match skipWs r3 with
            | ',' :: r4 =>
              match parseJsonMembers fuel (skipWs r4) with
              | some (.dict kvs, r5) => some (.dict ((key, v) :: kvs), r5)
              | _ => Option.none
            | '\x7d' :: r4 => some (.dict [(key, v)], r4)
            | _ => Option.none
          | Option.none => Option.none
        | _ => Option.none
      | Option.none => Option.none
    | _ => Option.none

/-- Items of a JSON array, positioned at the first element. -/
def parseJsonItems : ℕ → List Char → Option (PyVal × List Char)
  | 0, _ => Option.none
  | fuel + 1, s =>
    match parseJsonVal fuel s with
    | some (v, r1) =>
      match skipWs r1 with
      | ',' :: r2 =>
        match parseJsonItems fuel (skipWs r2) with
        | some (.list xs, r3) => some (.list (v :: xs), r3)
        | _ => Option.none
      | ']' :: r2 => some (.list [v], r2)
      | _ => Option.none
    | Option.none => Option.none

end

/-- `json.loads`: parse the whole text as one JSON value, allowing
surrounding whitespace and rejecting trailing data. -/
def json_loads (s : List Char) : Option PyVal :=
  match parseJsonVal (2 * s.length + 4) (skipWs s) with
  | some (v, rest) => if (skipWs rest).isEmpty then some v else Option.none
  | Option.none => Option.none

/-- The fallback extraction of `_try_extract_json` (llm.py line 116):
`re.search(r"(\x7b[\s\S]*\x7d)", text)` matches from the FIRST opening brace
greedily to the LAST closing brace of the text (leftmost match start, then
greedy `[\s\S]*` backtracking from the end), requiring at least one closing
brace after the opening one. -/
def greedyBraceSpan (t : List Char) : Option (List Char) :=
  let afterFirst := t.dropWhile (fun c => c ≠ '\x7b')
  if afterFirst.isEmpty then Option.none
  else
    let upToLast := (afterFirst.reverse.dropWhile (fun c => c ≠ '\x7d')).reverse
    if upToLast.isEmpty then Option.none else some upToLast

/-- `_try_extract_json` (llm.py lines 105-123): strip the text, try a strict
`json.loads` of the whole text, then fall back to the greedy first-brace /
last-brace span and parse that; `None` if both fail. -/
def try_extract_json (text : List Char) : Option PyVal :=
  let t := pyStrip text
  match json_loads t with
  | some v => some v
  | Option.none =>
    match greedyBraceSpan t with
    | Option.none => Option.none
    | some blob => json_loads blob

/-- Python `int(x)` truncation of a real number toward zero. -/
def pyTrunc (q : ℚ) : ℤ := if 0 ≤ q then ⌊q⌋ else ⌈q⌉

/-- Round-half-to-even to an integer (Python's `round` tie-breaking). -/
def rndHalfEven (x : ℚ) : ℤ :=
  if x - ⌊x⌋ < 1 / 2 then ⌊x⌋
  else if 1 / 2 < x - ⌊x⌋ then ⌊x⌋ + 1
  else if Even ⌊x⌋ then ⌊x⌋ else ⌊x⌋ + 1

/-- Python `round(q, 6)` on a real value, modelled exactly on rationals. -/
def pyRound6 (q : ℚ) : ℚ := (rndHalfEven (q * 10 ^ 6) : ℚ) / 10 ^ 6

/-- Python `n * seq` sequence repetition (non-positive `n` gives empty). -/
def seqRepeat {α : Type} (n : ℤ) (s : List α) : List α :=
  (List.replicate n.toNat s).flatten

/-- Python `n * x` where `n` is an `int` and `x` an arbitrary value. -/
def pyMulInt (n : ℤ) : PyVal → Except PyErr PyVal
  | .int m => .ok (.int (n * m))
  | .float q => .ok (.float ((n : ℚ) * q))
  | .bool b => .ok (.int (n * (if b then 1 else 0)))
  | .str s => .ok (.str (seqRepeat n s))
  | .list xs => .ok (.list (seqRepeat n xs))
  | _ => .error (.typeError "unsupported operand type for *".toList)

/-- Python `len(x)` (dict length counts distinct keys). -/
def pyLen : PyVal → Except PyErr ℤ
  | .str s => .ok s.length
  | .list xs => .ok xs.length
  | .dict kvs => .ok ((kvs.map (·.1)).dedup.length)
  | _ => .error (.typeError "object has no len()".toList)

/-- Python `int(x)`: ints unchanged, floats truncated toward zero, bools to
0/1, strings parsed as an optionally signed decimal literal (surrounding
whitespace allowed) raising `ValueError` otherwise, and `TypeError` for the
remaining types.  Exception messages are abbreviated. -/
def pyIntCoerce : PyVal → Except PyErr ℤ
  | .int n => .ok n
  | .float q => .ok (pyTrunc q)
  | .bool b => .ok (if b then 1 else 0)
  | .str s =>
    let t := pyStrip s
    let (neg, ds) : Bool × List Char := match t with
      | '-' :: r => (true, r)
      | '+' :: r => (false, r)
      | r => (false, r)
    if ds ≠ [] ∧ ds.all isDigitCh then
      .ok (if neg then -(digitsToNat ds : ℤ) else (digitsToNat ds : ℤ))
    else
      .error (.valueError ("invalid literal for int() with base 10: ".toList ++ s))
  | _ => .error (.typeError "int() argument must be a string or a number".toList)

/-- Python `round(x, 6)` on a value: ints (and bools) are returned as ints,
floats are rounded half-to-even at 6 decimal places, anything else raises. -/
def pyRoundVal6 : PyVal → Except PyErr PyVal
  | .int n => .ok (.int n)
  | .bool b => .ok (.int (if b then 1 else 0))
  | .float q => .ok (.float (pyRound6 q))
  | _ => .error (.typeError "type not supported by round()".toList)

/-- `estimate_cost_for_files` (tools.py lines 292-306):
`count = len(files)`, `estimated_seconds = int(count * runtime_per_test_s)`,
`estimate_usd = round(estimated_seconds * cost_per_second_usd, 6)`, returned
as a dict.  Any exception in this arithmetic propagates to the caller. -/
def estimate_cost_for_files (files runtime_per_test_s cost_per_second_usd : PyVal) :
    Except PyErr PyVal := do
  let count ← pyLen files
  let prod ← pyMulInt count runtime_per_test_s
  let estimated_seconds ← pyIntCoerce prod
  let prod2 ← pyMulInt estimated_seconds cost_per_second_usd
  let estimate_usd ← pyRoundVal6 prod2
  pure (.dict [("estimate_usd".toList, estimate_usd),
               ("estimated_seconds".toList, .int estimated_seconds)])

/-- Projection used to state properties of `estimate_cost_for_files`: the
returned `estimated_seconds` value, when the call succeeds. -/
def estSeconds (files runtime cost : PyVal) : Option ℤ :=
  match estimate_cost_for_files files runtime cost with
  | .ok (.dict kvs) =>
    match dictGet? kvs "estimated_seconds".toList with
    | some (.int n) => some n
    | _ => Option.none
  | _ => Option.none

/-- Projection: the returned `estimate_usd` value, when the call succeeds
with a float estimate. -/
def estUsd (files runtime cost : PyVal) : Option ℚ :=
  match estimate_cost_for_files files runtime cost with
  | .ok (.dict kvs) =>
    match dictGet? kvs "estimate_usd".toList with
    | some (.float q) => some q
    | some (.int n) => some (n : ℚ)
    | _ => Option.none
  | _ => Option.none

def hexDigitCh (n : ℕ) : Char :=
  if n < 10 then Char.ofNat ('0'.toNat + n) else Char.ofNat ('a'.toNat + n - 10)

def intDigits (n : ℤ) : List Char :=
  (if n < 0 then ['-'] else []) ++ Nat.toDigits 10 n.natAbs

/-- Smallest exponent `k ≤ 20` with `d ∣ 10 ^ k`, when one exists. -/
def decExp? (d : ℕ) : Option ℕ := (List.range 21).find? (fun k => 10 ^ k % d = 0)

/-- Decimal rendering of a rational, used to approximate Python's float
`repr`.  Exact when the denominator divides a power of ten (the only case
arising from parsed JSON decimals); no theorem depends on this text. -/
def ratDecimal (q : ℚ) : List Char :=
  if q.den = 1 then intDigits q.num ++ ".0".toList
  else
    match decExp? q.den with
    | some k =>
      let m : ℕ := (q.num.natAbs * (10 ^ k / q.den))
      let ip := m / 10 ^ k
      let fp := m % 10 ^ k
      let fpDigits := Nat.toDigits 10 fp
      (if q.num < 0 then ['-'] else []) ++ Nat.toDigits 10 ip ++ '.' ::
        (List.replicate (k - fpDigits.length) '0' ++ fpDigits)
    | Option.none => intDigits q.num ++ '/' :: Nat.toDigits 10 q.den

def jsonEscapeChar (c : Char) : List Char :=
  if c = '"' then ['\\', '"']
  else if c = '\\' then ['\\', '\\']
  else if c = '\n' then ['\\', 'n']
  else if c = '\t' then ['\\', 't']
  else if c = '\r' then ['\\', 'r']
  else if c.toNat < 32 then
    ['\\', 'u', '0', '0', hexDigitCh (c.toNat / 16), hexDigitCh (c.toNat % 16)]
  else [c]

def jsonEscape (s : List Char) : List Char := (s.map jsonEscapeChar).flatten

/-- Fuel-indexed body of `json.dumps`; the fuel only needs to exceed the
nesting depth of the value (ensured by the wrapper below), so the
fuel-exhausted branches are never reached. -/
def pyJsonDumpsF : ℕ → PyVal → List Char
  | _, .none => "null".toList
  | _, .bool true => "true".toList
  | _, .bool false => "false".toList
  | _, .int n => intDigits n
  | _, .float q => ratDecimal q
  | _, .str s => '"' :: (jsonEscape s ++ ['"'])
  | 0, .list _ => []
  | 0, .dict _ => []
  | f + 1, .list xs =>
    '[' :: (List.intercalate ", ".toList (xs.map (pyJsonDumpsF f)) ++ [']'])
  | f + 1, .dict kvs =>
    '\x7b' :: (List.intercalate ", ".toList
      (kvs.map (fun p =>
        '"' :: (jsonEscape p.1 ++ "\": ".toList) ++ pyJsonDumpsF f p.2)) ++ ['\x7d'])

/-- `json.dumps(v, ensure_ascii=False)` with the default separators.  The
recursion depth is bounded by 1000, mirroring CPython's recursion limit on
nested structures (`json.dumps` raises `RecursionError` beyond it); no
value in this development approaches that depth. -/
def pyJsonDumps (v : PyVal) : List Char := pyJsonDumpsF 1000 v

/-- Python `str(x)` for the values that reach f-string interpolation in the
loop (`f"[Tool {name} result] ..."`, `f"unknown tool ..."`).  Container
`repr` is approximated by the JSON rendering; no theorem depends on it. -/
def pyStrOf : PyVal → List Char
  | .str s => s
  | .int n => intDigits n
  | .bool true => "True".toList
  | .bool false => "False".toList
  | .none => "None".toList
  | .float q => ratDecimal q
  | .list xs => pyJsonDumps (.list xs)
  | .dict kvs => pyJsonDumps (.dict kvs)

/-- `str(e)` of an embedded Python exception: its message. -/
def pyErrStr : PyErr → List Char
  | .typeError m => m
  | .valueError m => m
  | .attributeError m => m
  | .keyError m => m
  | .runtimeError m => m
  | .osError m => m

-- ------------------ The Tool-Calling Loop (llm.py 126-216) ------------------

/-- One entry of the conversation list built by `invoke_with_tools`: an
initial caller-supplied message, a model response object (identified with
its content text), or an appended `{"role": "assistant", "content": ...}`
tool-result message. -/
inductive ConvItem where
  | initMsg (role content : List Char)
  | resp (content : List Char)
  | toolMsg (content : List Char)

/-- A registered tool: a Python callable from an argument value to a result;
it may raise (hence `Except`). -/
def ToolFn : Type := PyVal → Except PyErr PyVal

/-- The name → callable map built by `_build_tool_map`. -/
def ToolMap : Type := List (List Char × ToolFn)

/-- A deterministic model backend (temperature 0): the content text returned
by `llm.invoke(conversation)`. -/
def Model : Type := List ConvItem → List Char

/-- The `name not in tool_map` membership test (llm.py 185, outside the
`try` block): Python hashes `name`, so an unhashable name (a list or dict)
raises `TypeError` out of the loop; a hashable name simply is or is not a
key of the map — only string names can match. -/
def lookupTool (tm : ToolMap) (name : PyVal) : Except PyErr (Option ToolFn) :=
  match name with
  | .list _ => .error (.typeError "unhashable type: list".toList)
  | .dict _ => .error (.typeError "unhashable type: dict".toList)
  | .str s => .ok ((tm.find? (fun p => p.1 = s)).map (·.2))
  | _ => .ok Option.none

/-- Lines 154-171 of llm.py: parse the response content and decide between
"final answer" (`.ok none`), a batch of tool calls (`.ok (some calls)`), or
a raised exception (a truthy non-container parse makes `"tool_call" in
parsed` raise `TypeError`). -/
def toolCallsBranch (parsed : PyVal) : Except PyErr (Option (List PyVal)) :=
  match pyContains parsed "tool_calls".toList with
  | .error e => .error e
  | .ok true =>
    match pySubscript parsed "tool_calls".toList with
    | .error e => .error e
    | .ok (.list xs) => .ok (some xs)
    | .ok _ => .ok Option.none
  | .ok false => .ok Option.none

def extract_calls (content : List Char) : Except PyErr (Option (List PyVal)) :=
  match try_extract_json content with
  | Option.none => .ok Option.none
  | some parsed =>
    if ¬ pyTruthy parsed then .ok Option.none
    else
      match pyContains parsed "tool_call".toList with
      | .error e => .error e
      | .ok true =>
        match pySubscript parsed "tool_call".toList with
        | .error e => .error e
        | .ok (.dict kvs) => .ok (some [.dict kvs])
        | .ok _ => toolCallsBranch parsed
      | .ok false => toolCallsBranch parsed

def toolResultText (name : PyVal) (out : PyVal) : List Char :=
  "[Tool ".toList ++ pyStrOf name ++ " result] ".toList ++ pyJsonDumps out

/-- The body of the `for call in calls` loop (llm.py 183-202), for a single
entry: produces the serialized result text and the executed-tool trace
(empty for an unknown tool name).  A non-dict entry raises
`AttributeError` at `call.get("name")`; an unhashable name value raises
`TypeError` at the `name not in tool_map` test (both uncaught).  A tool
that raises internally is caught and converted to an `{"error": str(e)}`
result. -/
def runToolCall (tm : ToolMap) (call : PyVal) :
    Except PyErr (List Char × List (PyVal × PyVal)) :=
  match call with
  | .dict kvs =>
    let name := dictGetD kvs "name".toList .none
    let args := pyOr (dictGetD kvs "args".toList (.dict [])) (.dict [])
    match lookupTool tm name with
    | .error e => .error e
    | .ok Option.none =>
      let out : PyVal := .dict [("error".toList,
        .str ("unknown tool \x27".toList ++ pyStrOf name ++ "\x27".toList))]
      .ok (toolResultText name out, [])
    | .ok (some fn) =>
      let out : PyVal :=
        match fn args with
        | .ok o => o
        | .error e => .dict [("error".toList, .str (pyErrStr e))]
      .ok (toolResultText name out, [(name, args)])
  | _ => .error (.attributeError "object has no attribute get".toList)

/-- Result of executing one batch: the final `tool_calls_done` counter, the
collected `tool_results_texts`, and the trace of actually-executed tool
invocations (name, args). -/
structure BatchRes where
  done : ℕ
  texts : List (List Char)
  trace : List (PyVal × PyVal)

/-- Lines 173-202: execute the batch in order; before EACH entry, if the
global counter has reached the ceiling, `break` (dropping this and all
remaining entries of the batch); otherwise process the entry and increment
the counter by exactly one, whatever the outcome. -/
def execBatch (tm : ToolMap) (maxCalls : ℕ) : List PyVal → ℕ → Except PyErr BatchRes
  | [], done => .ok ⟨done, [], []⟩
  | call :: rest, done =>
    if maxCalls ≤ done then .ok ⟨done, [], []⟩
    else
      match runToolCall tm call with
      | .error e => .error e
      | .ok (txt, tr) =>
        match execBatch tm maxCalls rest (done + 1) with
        | .error e => .error e
        | .ok r => .ok ⟨r.done, txt :: r.texts, tr ++ r.trace⟩

/-- The mutable state of one `while True` iteration: the conversation and
the `tool_calls_done` counter. -/
structure LoopSt where
  conv : List ConvItem
  done : ℕ

/-- One iteration of the `while True` loop (lines 145-216): invoke the
model, extract calls, and either return the response (`Sum.inr`), continue
with the extended conversation (`Sum.inl`), or raise.  Also reports the
executed-tool trace of the iteration. -/
def loopIter (tm : ToolMap) (model : Model) (maxCalls : ℕ) (st : LoopSt) :
    Except PyErr ((LoopSt ⊕ List Char) × List (PyVal × PyVal)) :=
  let content := model st.conv
  match extract_calls content with
  | .error e => .error e
  | .ok Option.none => .ok (.inr content, [])
  | .ok (some calls) =>
    match execBatch tm maxCalls calls st.done with
    | .error e => .error e
    | .ok br =>
      let conv' := st.conv ++ [ConvItem.resp content] ++ br.texts.map ConvItem.toolMsg
      if maxCalls ≤ br.done then .ok (.inr content, br.trace)
      else .ok (.inl ⟨conv', br.done⟩, br.trace)

/-- Observable outcome of a terminating loop run: the returned response (or
the propagated exception), the trace of executed tools, and the number of
model invocations performed. -/
structure LoopOut where
  result : Except PyErr (List Char)
  trace : List (PyVal × PyVal)
  modelCalls : ℕ

/-- Fuel-indexed unfolding of the `while True` loop.  `Option.none` means
the given fuel did not suffice (in particular, a diverging run yields
`Option.none` for every fuel). -/
def runLoop (tm : ToolMap) (model : Model) (maxCalls : ℕ) :
    ℕ → LoopSt → ℕ → List (PyVal × PyVal) → Option LoopOut
  | 0, _, _, _ => Option.none
  | fuel + 1, st, mc, tr =>
    match loopIter tm model maxCalls st with
    | .error e => some ⟨.error e, tr, mc + 1⟩
    | .ok (.inr r, t) => some ⟨.ok r, tr ++ t, mc + 1⟩
    | .ok (.inl st', t) => runLoop tm model maxCalls fuel st' (mc + 1) (tr ++ t)

/-- `invoke_with_tools(messages, max_tool_calls)` (llm.py 126-216), started
from a fresh counter, observed through `fuel` loop iterations. -/
def invoke_with_tools (tm : ToolMap) (model : Model) (messages : List ConvItem)
    (maxCalls fuel : ℕ) : Option LoopOut :=
  runLoop tm model maxCalls fuel ⟨messages, 0⟩ 0 []

/-- The default `max_tool_calls` of `invoke_with_tools` and `invoke`. -/
def defaultMaxToolCalls : ℕ := 3

/-- Termination of one loop run: some finite fuel suffices. -/
def loopTerminates (tm : ToolMap) (model : Model) (messages : List ConvItem)
    (maxCalls : ℕ) : Prop :=
  ∃ fuel out, invoke_with_tools tm model messages maxCalls fuel = some out

-- ------------------ Resilient Invocation (llm.py 69-78) ------------------

/-- Failure taxonomy of one model-invocation attempt (spec §7): a
configuration/validation error or a transient backend/timeout failure.
The tenacity decorator in the source does not inspect this distinction. -/
inductive InvokeErr where
  | configuration (msg : List Char)
  | backend (msg : List Char)
  | timedOut (msg : List Char)

/-- tenacity `wait_exponential(multiplier, min, max)`: after the failed
attempt numbered `attempt` (1-based), wait
`max(min, min(multiplier * 2 ^ attempt, max))` seconds. -/
def wait_exponential (multiplier minW maxW : ℚ) (attempt : ℕ) : ℚ :=
  max minW (min (multiplier * 2 ^ attempt) maxW)

/-- Outcome of the decorated call: the first successful value, or (after the
attempt budget is exhausted) a tenacity `RetryError` wrapping the final
attempt's exception. -/
inductive RetryResult (α : Type) where
  | ok (a : α)
  | retryError (last : InvokeErr)

/-- Observable run of the decorated call: outcome, number of attempts
actually made, and the sleeps performed between attempts. -/
structure RetryRun (α : Type) where
  result : RetryResult α
  attempts : ℕ
  waits : List ℚ

/-- tenacity retry driver for
`@retry(stop=stop_after_attempt(3), wait=wait_exponential(multiplier=1, min=2, max=8))`:
`f i` is the outcome of attempt number `i`; the default retry predicate
retries on EVERY exception; `budget` is the number of retries remaining. -/
def tenacityGo {α : Type} (f : ℕ → Except InvokeErr α) : ℕ → ℕ → RetryRun α
  | 0, i =>
    match f i with
    | .ok a => ⟨.ok a, 1, []⟩
    | .error e => ⟨.retryError e, 1, []⟩
  | budget + 1, i =>
    match f i with
    | .ok a => ⟨.ok a, 1, []⟩
    | .error _ =>
      let r := tenacityGo f budget (i + 1)
      ⟨r.result, r.attempts + 1, wait_exponential 1 2 8 i :: r.waits⟩

/-- `resilient_invoke` (llm.py 69-78): up to 3 total attempts. -/
def resilient_invoke {α : Type} (f : ℕ → Except InvokeErr α) : RetryRun α :=
  tenacityGo f 2 1

-- ------------------ Tool Registry (tools.py) ------------------

/-- Outcome of the `subprocess.run` underlying `run_model_via_ollama`. -/
inductive SubprocOutcome where
  | completed (returncode : ℤ) (stdout stderr : List Char)
  | fileNotFound
  | timedOut

/-- Outcomes of the I/O collaborators a single tool call touches: the file
read, the `save_intermediate` artifact write, the directory walk of
`get_all_files_list`, and the Ollama subprocess. -/
structure World where
  readResult : Except PyErr (List Char)
  saveResult : Except PyErr Unit
  listResult : Except PyErr (List (List Char))
  ollamaResult : SubprocOutcome

/-- `read_file_content` (tools.py 123-132): never raises — a failed read is
converted to an `[Error reading ...]` string. -/
def read_file_content (w : World) (filepath : List Char) : List Char :=
  match w.readResult with
  | .ok s => s
  | .error e =>
    "[Error reading ".toList ++ filepath ++ ": ".toList ++ pyErrStr e ++ [']']

/-- `run_model_via_ollama` (tools.py 201-228): raises `RuntimeError` when
the subprocess is missing, times out, or exits non-zero. -/
def run_model_via_ollama (w : World) : Except PyErr (List Char) :=
  match w.ollamaResult with
  | .completed rc out err =>
    if rc ≠ 0 then
      .error (.runtimeError
        ("ollama failed (".toList ++ intDigits rc ++ "): ".toList ++ err))
    else .ok out
  | .fileNotFound =>
    .error (.runtimeError "Ollama not found on PATH.".toList)
  | .timedOut =>
    .error (.runtimeError "Ollama invocation timed out.".toList)

def errDict (e : PyErr) : PyVal := .dict [("error".toList, .str (pyErrStr e))]

/-- `file_reader_tool` (tools.py 314-334).  `full = Path(repo_root) / path`
is computed BEFORE the `try` block, so non-string `repo_root`/truthy
non-string `path` raise `TypeError` out of the tool; inside the `try`,
`read_file_content` cannot raise and a failing `save_intermediate` is
converted to an `error` result. -/
def file_reader_tool (w : World) (args : PyVal) : Except PyErr PyVal :=
  match args with
  | .dict kvs =>
    let repo_root := dictGetD kvs "repo_root".toList (.str ".".toList)
    let path := dictGetD kvs "path".toList .none
    if ¬ pyTruthy path then
      .ok (.dict [("error".toList, .str "no path provided".toList)])
    else
      match repo_root, path with
      | .str rr, .str p =>
        let full := rr ++ '/' :: p
        let content := read_file_content w full
        match w.saveResult with
        | .error e => .ok (errDict e)
        | .ok _ =>
          .ok (.dict [("content".toList, .str content), ("path".toList, .str p)])
      | _, _ =>
        .error (.typeError "argument should be a str or an os.PathLike object".toList)
  | _ => .error (.attributeError "object has no attribute get".toList)

/-- `file_list_tool` (tools.py 337-353): the whole body after the argument
lookup sits inside `try`, so every failure becomes an `error` result. -/
def file_list_tool (w : World) (args : PyVal) : Except PyErr PyVal :=
  match args with
  | .dict _kvs =>
    match w.listResult with
    | .error e => .ok (errDict e)
    | .ok files =>
      match w.saveResult with
      | .error e => .ok (errDict e)
      | .ok _ => .ok (.dict [("files".toList, .list (files.map .str))])
  | _ => .error (.attributeError "object has no attribute get".toList)

/-- `cost_estimator_tool` (tools.py 356-376): argument lookups cannot raise
and the arithmetic plus the artifact write sit inside `try`. -/
def cost_estimator_tool (w : World) (args : PyVal) : Except PyErr PyVal :=
  match args with
  | .dict kvs =>
    let files := dictGetD kvs "files".toList (.list [])
    let runtime_per := dictGetD kvs "runtime_per_test_s".toList (.float 3)
    let cost_per_second := dictGetD kvs "cost_per_second_usd".toList (.float (1 / 2000))
    match estimate_cost_for_files files runtime_per cost_per_second with
    | .error e => .ok (errDict e)
    | .ok estimate =>
      match w.saveResult with
      | .error e => .ok (errDict e)
      | .ok _ => .ok (.dict [("estimate".toList, estimate)])
  | _ => .error (.attributeError "object has no attribute get".toList)

/-- `model_runner_tool` (tools.py 379-409).  `int(args.get("timeout", 60))`
is evaluated BEFORE the `try` block, so a non-int-coercible `timeout` raises
out of the tool; inside the `try` every failure (missing binary, timeout,
non-zero exit, failing artifact write) becomes an `error` result, and with
`as_json` a parse failure is reported as `json_error` beside the raw
output. -/
def model_runner_tool (w : World) (args : PyVal) : Except PyErr PyVal :=
  match args with
  | .dict kvs =>
    match pyIntCoerce (dictGetD kvs "timeout".toList (.int 60)) with
    | .error e => .error e
    | .ok _timeout =>
      let as_json := pyTruthy (dictGetD kvs "as_json".toList (.bool false))
      match run_model_via_ollama w with
      | .error e => .ok (errDict e)
      | .ok out =>
        match w.saveResult with
        | .error e => .ok (errDict e)
        | .ok _ =>
          if as_json then
            match json_loads out with
            | some parsed =>
              .ok (.dict [("output".toList, .str out), ("json".toList, parsed)])
            | Option.none =>
              .ok (.dict [("output".toList, .str out),
                          ("json_error".toList, .str "failed to parse JSON".toList)])
          else .ok (.dict [("output".toList, .str out)])
  | _ => .error (.attributeError "object has no attribute get".toList)

/-- `tools_for_binding` / `_build_tool_map` (tools.py 423-447, llm.py
86-102): the four registered tools keyed by name. -/
def build_tool_map (w : World) : ToolMap :=
  [("file_reader".toList, file_reader_tool w),
   ("file_list".toList, file_list_tool w),
   ("cost_estimator".toList, cost_estimator_tool w),
   ("model_runner".toList, model_runner_tool w)]

-- ------------------ Analyze stage (nodes.py 15-51) ------------------

def analyzerHeader (visual_tree : List Char) : List Char :=
  "# Project Structure\n```\n".toList ++ visual_tree ++ "\n```\n\n".toList

/-- The `project_context` fragment one file contributes: the model's reply
on success, the `[Analysis Failed]` placeholder when `resilient_invoke`
raised (nodes.py 39-49). -/
def analyzeSection (file_path : List Char) (outcome : RetryResult (List Char)) :
    List Char :=
  match outcome with
  | .ok resp => "## File: ".toList ++ file_path ++ '\n' :: (resp ++ "\n\n".toList)
  | .retryError _ => "## File: ".toList ++ file_path ++ "\n[Analysis Failed]\n\n".toList

/-- The per-file human message sent to the model (nodes.py 43). -/
def analyzeMsg (file_path content : List Char) : List Char :=
  "File: ".toList ++ file_path ++ "\n\nCode:\n".toList ++ content

/-- `analyze_codebase` (nodes.py 15-51).  `visual_tree` and `files_list`
are the results of the directory-walking collaborators; `readF` is the
(total) `read_file_content`; `modelF msg i` is the outcome of attempt `i`
of the per-file model call on human message `msg`, run through
`resilient_invoke`.  Returns the `file_list` and `project_context` fields
of the updated state. -/
def analyze_codebase (root_dir visual_tree : List Char)
    (files_list : List (List Char)) (readF : List Char → List Char)
    (modelF : List Char → ℕ → Except InvokeErr (List Char)) :
    List (List Char) × List Char :=
  let sections := files_list.map (fun fp =>
    let content := readF (root_dir ++ '/' :: fp)
    analyzeSection fp (resilient_invoke (modelF (analyzeMsg fp content))).result)
  (files_list, analyzerHeader visual_tree ++ sections.flatten)

-- ------------------ Concrete instances used in statements ------------------

/-- A world whose collaborators all succeed trivially. -/
def okWorld : World :=
  ⟨.ok ("content".toList), .ok (), .ok [], .completed 0 ("out".toList) []⟩

/-- A backend that always answers with an empty `tool_calls` batch. -/
def emptyBatchModel : Model := fun _ => "\x7b\"tool_calls\": []\x7d".toList

/-- A backend that always answers with the bare number `5`. -/
def numericModel : Model := fun _ => "5".toList

/-- A backend that always answers with plain prose (no JSON object). -/
def proseModel : Model := fun _ => "all done".toList

/-- A backend that always requests two `file_list` tool calls in one batch. -/
def twoCallModel : Model := fun _ =>
  ("\x7b\"tool_calls\": [\x7b\"name\": \"file_list\", \"args\": \x7b\x7d\x7d, " ++
   "\x7b\"name\": \"file_list\", \"args\": \x7b\x7d\x7d]\x7d").toList

/-- Attempt outcomes whose first attempt fails with a configuration error
(`ChatLiteLLM` unavailable) and whose second attempt succeeds. -/
def cfgThenOk : ℕ → Except InvokeErr (List Char)
  | 1 => .error (.configuration
      "ChatLiteLLM is not available. Install langchain_litellm.".toList)
  | _ => .ok ("response".toList)

/-- A per-file analyzer backend that permanently fails on `x.py` and
succeeds on every other file. -/
def xpyFailModel : List Char → ℕ → Except InvokeErr (List Char) := fun msg _ =>
  if msg.take 10 = "File: x.py".toList then .error (.backend "connection reset".toList)
  else .ok ("interface summary".toList)

/-- A registry holding one tool that always raises internally. -/
def boomToolMap : ToolMap :=
  [("boom".toList, fun _ => .error (.runtimeError ("boom".toList)))]

/-- A batch with one unknown-tool entry and one entry whose tool raises. -/
def mixedCalls : List PyVal :=
  [.dict [("name".toList, .str ("nope".toList))],
   .dict [("name".toList, .str ("boom".toList))]]

/-- A batch whose single entry is a mapping naming the tool with a LIST
(legal JSON, but unhashable as a Python dict key). -/
def unhashableNameCalls : List PyVal :=
  [.dict [("name".toList, .list [.str ("file_list".toList)])]]

-- ====================== Theorems ======================

-- Helper lemmas on the rounding/truncation primitives.

theorem pyTrunc_mono {a b : ℚ} (h : a ≤ b) : pyTrunc a ≤ pyTrunc b := by
  unfold pyTrunc
  split_ifs with h1 h2 h2
  · exact Int.floor_le_floor h
  · exact absurd (h1.trans h) h2
  · have ha : a < 0 := lt_of_not_ge h1
    have hc : (⌈a⌉ : ℤ) ≤ 0 := Int.ceil_le.mpr (by exact_mod_cast ha.le)
    have hf : (0 : ℤ) ≤ ⌊b⌋ := by
      rw [Int.le_floor]
      exact_mod_cast h2
    omega
  · exact Int.ceil_le_ceil h

theorem rndHalfEven_bounds (z : ℚ) :
    ⌊z⌋ ≤ rndHalfEven z ∧ rndHalfEven z ≤ ⌊z⌋ + 1 := by
  unfold rndHalfEven
  split_ifs <;> omega

theorem rndHalfEven_mono {x y : ℚ} (h : x ≤ y) : rndHalfEven x ≤ rndHalfEven y := by
  have hf := Int.floor_le_floor h
  by_cases hlt : (⌊x⌋ : ℤ) < ⌊y⌋
  · have hx := (rndHalfEven_bounds x).2
    have hy := (rndHalfEven_bounds y).1
    omega
  · have heq : (⌊x⌋ : ℤ) = ⌊y⌋ := le_antisymm hf (not_lt.1 hlt)
    unfold rndHalfEven
    rw [heq]
    split_ifs <;> first | omega | (exfalso; linarith)

theorem pyRound6_mono {a b : ℚ} (h : a ≤ b) : pyRound6 a ≤ pyRound6 b := by
  unfold pyRound6
  have h1 : a * 10 ^ 6 ≤ b * 10 ^ 6 := by nlinarith
  have h2 : (rndHalfEven (a * 10 ^ 6) : ℚ) ≤ (rndHalfEven (b * 10 ^ 6) : ℚ) := by
    exact_mod_cast rndHalfEven_mono h1
  have hp : (0 : ℚ) < 10 ^ 6 := by norm_num
  exact (div_le_div_iff_of_pos_right hp).mpr h2

theorem estSeconds_formula (files : List PyVal) (rt c : ℚ) :
    estSeconds (.list files) (.float rt) (.float c)
      = some (pyTrunc (((files.length : ℤ) : ℚ) * rt)) := rfl

theorem estUsd_formula (files : List PyVal) (rt c : ℚ) :
    estUsd (.list files) (.float rt) (.float c)
      = some (pyRound6 (((pyTrunc (((files.length : ℤ) : ℚ) * rt) : ℤ) : ℚ) * c)) := rfl

/-- Claim C7 (amended): for every files list and float runtime/cost, the
cost estimator returns `estimated_seconds` equal to `count(files) *
runtime_per_test_s` TRUNCATED TOWARD ZERO to an integer (`int(...)`), and
`estimate_usd` equal to those (truncated) seconds times the per-second cost
rounded half-to-even at 6 decimal places; in particular with 4 files,
runtime 3.0 and cost 0.0005 it returns estimate_usd = 0.006 (= 3/500) and
estimated_seconds = 12. -/
theorem C7_cost_estimator_formula :
    (∀ (files : List PyVal) (rt c : ℚ),
      estimate_cost_for_files (.list files) (.float rt) (.float c)
        = .ok (.dict [("estimate_usd".toList,
              .float (pyRound6 (((pyTrunc (((files.length : ℤ) : ℚ) * rt) : ℤ) : ℚ) * c))),
            ("estimated_seconds".toList, .int (pyTrunc (((files.length : ℤ) : ℚ) * rt)))]))
    ∧ estSeconds (.list [.none, .none, .none, .none]) (.float 3) (.float (1 / 2000))
        = some 12
    ∧ estUsd (.list [.none, .none, .none, .none]) (.float 3) (.float (1 / 2000))
        = some (3 / 500) := by
  refine ⟨fun files rt c => rfl, ?_, ?_⟩
  · rw [estSeconds_formula]
    norm_num [pyTrunc, Int.ceil_neg]
  · rw [estUsd_formula]
    norm_num [pyTrunc, pyRound6, rndHalfEven, Int.ceil_neg, Int.fract]

/-- Claim C7 counterexample: with one file and `runtime_per_test_s = 2.5`
the code returns `estimated_seconds = 2`, which is NOT equal to
`count(files) * runtime_per_test_s = 2.5` — the claimed equality fails
because the code truncates with `int(...)`. -/
theorem C7_counterexample :
    estSeconds (.list [.none]) (.float (5 / 2)) (.float 1) = some 2
    ∧ ((2 : ℚ) ≠ (1 : ℚ) * (5 / 2)) := by
  refine ⟨?_, by norm_num⟩
  rw [estSeconds_formula]
  norm_num [pyTrunc, Int.ceil_neg]

/-- Claim C8 (amended): both returned values are monotonically
non-decreasing in the number of files when `runtime_per_test_s ≥ 0` and
`cost_per_second_usd ≥ 0` are held fixed, and monotonically non-decreasing
in `runtime_per_test_s` when the file count and a non-negative
`cost_per_second_usd` are held fixed.  (The unrestricted claim is false for
negative runtimes or costs.) -/
theorem C8_cost_estimator_monotone :
    ∀ (files files' : List PyVal) (rt rt' c : ℚ) (s s' : ℤ) (u u' : ℚ),
      (files.length ≤ files'.length → 0 ≤ rt → 0 ≤ c →
        estSeconds (.list files) (.float rt) (.float c) = some s →
        estSeconds (.list files') (.float rt) (.float c) = some s' →
        estUsd (.list files) (.float rt) (.float c) = some u →
        estUsd (.list files') (.float rt) (.float c) = some u' →
        s ≤ s' ∧ u ≤ u')
      ∧ (rt ≤ rt' → 0 ≤ c →
        estSeconds (.list files) (.float rt) (.float c) = some s →
        estSeconds (.list files) (.float rt') (.float c) = some s' →
        estUsd (.list files) (.float rt) (.float c) = some u →
        estUsd (.list files) (.float rt') (.float c) = some u' →
        s ≤ s' ∧ u ≤ u') := by
  intro files files' rt rt' c s s' u u'
  constructor
  · intro hlen hrt hc h1 h2 h3 h4
    rw [estSeconds_formula] at h1 h2
    rw [estUsd_formula] at h3 h4
    injection h1 with h1
    injection h2 with h2
    injection h3 with h3
    injection h4 with h4
    subst h1 h2 h3 h4
    have hs : pyTrunc (((files.length : ℤ) : ℚ) * rt)
        ≤ pyTrunc (((files'.length : ℤ) : ℚ) * rt) :=
      pyTrunc_mono (mul_le_mul_of_nonneg_right (by exact_mod_cast hlen) hrt)
    exact ⟨hs, pyRound6_mono (mul_le_mul_of_nonneg_right (by exact_mod_cast hs) hc)⟩
  · intro hrt hc h1 h2 h3 h4
    rw [estSeconds_formula] at h1 h2
    rw [estUsd_formula] at h3 h4
    injection h1 with h1
    injection h2 with h2
    injection h3 with h3
    injection h4 with h4
    subst h1 h2 h3 h4
    have hlen0 : (0 : ℚ) ≤ ((files.length : ℤ) : ℚ) := by positivity
    have hs : pyTrunc (((files.length : ℤ) : ℚ) * rt)
        ≤ pyTrunc (((files.length : ℤ) : ℚ) * rt') :=
      pyTrunc_mono (mul_le_mul_of_nonneg_left hrt hlen0)
    exact ⟨hs, pyRound6_mono (mul_le_mul_of_nonneg_right (by exact_mod_cast hs) hc)⟩

/-- Claim C8 witness: instantiating the monotonicity theorem at 1 vs 2
files, runtime 1.0 and cost 0.0005. -/
theorem C8_cost_estimator_monotone_witness :
    (1 : ℤ) ≤ 2 ∧ (1 / 2000 : ℚ) ≤ 1 / 1000 :=
  (C8_cost_estimator_monotone [.none] [.none, .none] 1 2 (1 / 2000) 1 2
      (1 / 2000) (1 / 1000)).1
    (by norm_num) (by norm_num) (by norm_num)
    (by rw [estSeconds_formula]; norm_num [pyTrunc, Int.ceil_neg])
    (by rw [estSeconds_formula]; norm_num [pyTrunc, Int.ceil_neg])
    (by rw [estUsd_formula]; norm_num [pyTrunc, pyRound6, rndHalfEven, Int.ceil_neg, Int.fract])
    (by rw [estUsd_formula]; norm_num [pyTrunc, pyRound6, rndHalfEven, Int.ceil_neg, Int.fract])

-- List helper for the extraction lemma.

theorem dropWhile_append_of_all {p : Char → Bool} :
    ∀ {pre rest : List Char}, (∀ c ∈ pre, p c = true) →
      (pre ++ rest).dropWhile p = rest.dropWhile p := by
  intro pre
  induction pre with
  | nil => intro rest _; rfl
  | cons a as ih =>
    intro rest h
    simp only [List.cons_append, List.dropWhile_cons]
    rw [if_pos (h a (by simp))]
    exact ih (fun c hc => h c (by simp [hc]))

/-- The greedy regex fallback on a text of shape `pre ++ s ++ suf` where
`pre` has no opening brace, `suf` has no closing brace, and `s` starts with
an opening and ends with a closing brace, selects exactly `s`. -/
theorem greedyBraceSpan_decomp {pre s suf t : List Char}
    (hhead : s = '\x7b' :: t) (hlast : ∃ u, s = u ++ ['\x7d'])
    (hpre : ∀ c ∈ pre, c ≠ '\x7b') (hsuf : ∀ c ∈ suf, c ≠ '\x7d') :
    greedyBraceSpan (pre ++ s ++ suf) = some s := by
  obtain ⟨u, hu⟩ := hlast
  have h1 : (pre ++ s ++ suf).dropWhile (fun c => decide (c ≠ '\x7b')) = s ++ suf := by
    rw [List.append_assoc]
    rw [dropWhile_append_of_all (fun c hc => by simpa using hpre c hc)]
    rw [hhead]
    simp [List.dropWhile_cons]
  have h2 : ((s ++ suf).reverse.dropWhile (fun c => decide (c ≠ '\x7d'))).reverse = s := by
    rw [List.reverse_append]
    rw [dropWhile_append_of_all
      (fun c hc => by simpa using hsuf c (List.mem_reverse.mp hc))]
    rw [hu]
    simp [List.dropWhile_cons]
  simp only [greedyBraceSpan, h1, h2]
  rw [if_neg (by simp [hhead]), if_neg (by simp [hhead])]

/-- Claim C5 (amended): the structured-object extraction first strips the
text and tries to parse the whole of it; when that fails, the fallback is
the GREEDY span from the first opening brace to the LAST closing brace of
the text (not the first balanced object).  Consequently extraction returns
the embedded object only in the special case where that greedy span is the
object itself: when nothing before it contains an opening brace and nothing
after it contains a closing brace. -/
theorem C5_extract_json_fallback :
    ∀ (text pre s suf t : List Char) (v : PyVal),
      pyStrip text = pre ++ s ++ suf →
      json_loads s = some v →
      s = '\x7b' :: t →
      (∃ u, s = u ++ ['\x7d']) →
      (∀ c ∈ pre, c ≠ '\x7b') →
      (∀ c ∈ suf, c ≠ '\x7d') →
      json_loads (pre ++ s ++ suf) = Option.none →
      try_extract_json text = some v := by
  intro text pre s suf t v hstrip hs hhead hlast hpre hsuf hwhole
  simp only [try_extract_json, hstrip, hwhole]
  rw [greedyBraceSpan_decomp hhead hlast hpre hsuf]
  exact hs

/-- Claim C5 witness: a parseable object surrounded by brace-free prose is
extracted by the fallback. -/
theorem C5_extract_json_fallback_witness :
    try_extract_json ("note: \x7b\"a\": 1\x7d end".toList)
      = some (.dict [("a".toList, .int 1)]) :=
  C5_extract_json_fallback _ ("note: ".toList) ("\x7b\"a\": 1\x7d".toList)
    (" end".toList) ("\"a\": 1\x7d".toList) _
    rfl rfl rfl ⟨"\x7b\"a\": 1".toList, rfl⟩ (by decide) (by decide) rfl

/-- Claim C5 counterexample: on a text containing two top-level objects the
greedy fallback spans from the first opening to the last closing brace,
which parses as nothing, so extraction returns `None` even though the text
contains a parseable balanced top-level object (the first one) — the claim
that extraction returns the first such object is false on this input. -/
theorem C5_counterexample :
    try_extract_json ("\x7b\"a\": 1\x7d \x7b\"b\": 2\x7d".toList) = Option.none
    ∧ json_loads ("\x7b\"a\": 1\x7d".toList) = some (.dict [("a".toList, .int 1)]) :=
  ⟨rfl, rfl⟩

/-- Claim C8 counterexample: with a negative `runtime_per_test_s = -1.0`
(and the default cost 0.0005), adding a file strictly DECREASES both
returned values, so the claim's unrestricted "for all inputs" monotonicity
in the number of files is false. -/
theorem C8_counterexample :
    estSeconds (.list [.none]) (.float (-1)) (.float (1 / 2000)) = some (-1)
    ∧ estSeconds (.list [.none, .none]) (.float (-1)) (.float (1 / 2000)) = some (-2)
    ∧ estUsd (.list [.none]) (.float (-1)) (.float (1 / 2000)) = some (-(1 / 2000))
    ∧ estUsd (.list [.none, .none]) (.float (-1)) (.float (1 / 2000)) = some (-(1 / 1000))
    ∧ ¬ ((-1 : ℤ) ≤ -2) ∧ ¬ ((-(1 / 2000) : ℚ) ≤ -(1 / 1000)) := by
  refine ⟨?_, ?_, ?_, ?_, by norm_num, by norm_num⟩
  · rw [estSeconds_formula]
    norm_num [pyTrunc, Int.ceil_neg]
  · rw [estSeconds_formula]
    norm_num [pyTrunc, Int.ceil_neg]
  · rw [estUsd_formula]
    norm_num [pyTrunc, pyRound6, rndHalfEven, Int.ceil_neg, Int.fract]
  · rw [estUsd_formula]
    norm_num [pyTrunc, pyRound6, rndHalfEven, Int.ceil_neg, Int.fract]

/-- Claim C4 (amended): Resilient Invocation makes at most 3 total
attempts with exponential backoff clamped to [2 s, 8 s] between attempts,
returns the first successful response, and after exhausting the budget
raises a retry-exhaustion error wrapping the final failure — but it retries
on EVERY exception, including validation/configuration errors (tenacity's
default retry predicate), not only on transient/backend failures. -/
theorem C4_resilient_invoke_spec :
    ∀ (α : Type) (f : ℕ → Except InvokeErr α) (a : α) (e1 e2 e3 : InvokeErr),
      (resilient_invoke f).attempts ≤ 3
      ∧ (f 1 = .ok a → resilient_invoke f = ⟨.ok a, 1, []⟩)
      ∧ (f 1 = .error e1 → f 2 = .ok a →
          resilient_invoke f = ⟨.ok a, 2, [wait_exponential 1 2 8 1]⟩)
      ∧ (f 1 = .error e1 → f 2 = .error e2 → f 3 = .error e3 →
          resilient_invoke f = ⟨.retryError e3, 3,
            [wait_exponential 1 2 8 1, wait_exponential 1 2 8 2]⟩)
      ∧ (∀ i, 2 ≤ wait_exponential 1 2 8 i ∧ wait_exponential 1 2 8 i ≤ 8)
      ∧ (∀ i j, i ≤ j → wait_exponential 1 2 8 i ≤ wait_exponential 1 2 8 j) := by
  intro α f a e1 e2 e3
  refine ⟨?_, ?_, ?_, ?_, ?_, ?_⟩
  · rcases h1 : f 1 with e1' | a1
    · rcases h2 : f 2 with e2' | a2
      · rcases h3 : f 3 with e3' | a3 <;>
          simp [resilient_invoke, tenacityGo, h1, h2, h3]
      · simp [resilient_invoke, tenacityGo, h1, h2]
    · simp [resilient_invoke, tenacityGo, h1]
  · intro h1
    simp [resilient_invoke, tenacityGo, h1]
  · intro h1 h2
    simp [resilient_invoke, tenacityGo, h1, h2]
  · intro h1 h2 h3
    simp [resilient_invoke, tenacityGo, h1, h2, h3]
  · intro i
    constructor
    · exact le_max_left _ _
    · exact max_le (by norm_num) (min_le_right _ _)
  · intro i j hij
    apply max_le_max le_rfl
    apply min_le_min _ le_rfl
    have : (2 : ℚ) ^ i ≤ 2 ^ j := pow_le_pow_right₀ (by norm_num) hij
    calc (1 : ℚ) * 2 ^ i = 2 ^ i := one_mul _
    _ ≤ 2 ^ j := this
    _ = 1 * 2 ^ j := (one_mul _).symm

/-- Claim C4 witness: instantiating the retry specification on attempt
outcomes that fail once and then succeed. -/
theorem C4_resilient_invoke_spec_witness :
    resilient_invoke cfgThenOk
      = ⟨.ok ("response".toList), 2, [wait_exponential 1 2 8 1]⟩ :=
  (C4_resilient_invoke_spec (List Char) cfgThenOk ("response".toList)
      (.configuration "ChatLiteLLM is not available. Install langchain_litellm.".toList)
      (.backend []) (.backend [])).2.2.1 rfl rfl

/-- Claim C4 counterexample: the first attempt fails with a CONFIGURATION
error (the `ChatLiteLLM` client unavailable), yet the call is retried and
succeeds on attempt 2 after one backoff sleep — contradicting the claim
that validation/configuration errors are never retried (which would require
the error to propagate after attempt 1). -/
theorem C4_counterexample :
    resilient_invoke cfgThenOk = ⟨.ok ("response".toList), 2, [2]⟩
    ∧ cfgThenOk 1 = .error (.configuration
        "ChatLiteLLM is not available. Install langchain_litellm.".toList) := by
  constructor
  · simp only [resilient_invoke, tenacityGo, cfgThenOk]
    norm_num [wait_exponential]
  · rfl

/-- Claim C3 (amended): each registered tool is total — returns a result
mapping, converting internal failures to an `error` entry (shown for
`file_list`) — PROVIDED the argument coercions performed before the `try`
blocks succeed: `file_reader` needs a string `repo_root` and a falsy or
string `path`; `model_runner` needs an int-coercible `timeout`;
`file_list` and `cost_estimator` never raise on any dict argument mapping.
Without those typing conditions the claim is false (see the
counterexample). -/
theorem C3_tools_no_raise :
    ∀ (w : World) (kvs : List (List Char × PyVal)),
      ((∃ rr, dictGetD kvs ("repo_root".toList) (.str (".".toList)) = .str rr) →
       (pyTruthy (dictGetD kvs ("path".toList) .none) = false
         ∨ ∃ p, dictGetD kvs ("path".toList) .none = .str p) →
       ∃ out, file_reader_tool w (.dict kvs) = .ok (.dict out))
      ∧ (∃ out, file_list_tool w (.dict kvs) = .ok (.dict out))
      ∧ (∃ out, cost_estimator_tool w (.dict kvs) = .ok (.dict out))
      ∧ ((∃ n, pyIntCoerce (dictGetD kvs ("timeout".toList) (.int 60)) = .ok n) →
         ∃ out, model_runner_tool w (.dict kvs) = .ok (.dict out))
      ∧ (∀ e, w.listResult = .error e →
          file_list_tool w (.dict kvs) = .ok (.dict [("error".toList, .str (pyErrStr e))])) := by
  intro w kvs
  refine ⟨?_, ?_, ?_, ?_, ?_⟩
  · intro hrr hpath
    rcases hrr with ⟨rr, hrr⟩
    by_cases ht : pyTruthy (dictGetD kvs ("path".toList) .none) = true
    · rcases hpath with hf | ⟨p, hp⟩
      · rw [hf] at ht
        cases ht
      · rw [hp] at ht
        rcases hs : w.saveResult with e | u
        · exact ⟨[("error".toList, .str (pyErrStr e))],
            by simp only [file_reader_tool, hrr, hp, ht, hs, errDict]; simp⟩
        · exact ⟨[("content".toList, .str (read_file_content w (rr ++ '/' :: p))),
              ("path".toList, .str p)],
            by simp only [file_reader_tool, hrr, hp, ht, hs]; simp⟩
    · simp only [Bool.not_eq_true] at ht
      exact ⟨[("error".toList, .str ("no path provided".toList))],
        by simp only [file_reader_tool, ht]; simp⟩
  · rcases hl : w.listResult with e | fs
    · exact ⟨[("error".toList, .str (pyErrStr e))],
        by simp only [file_list_tool, hl, errDict]⟩
    · rcases hs : w.saveResult with e | u
      · exact ⟨[("error".toList, .str (pyErrStr e))],
          by simp only [file_list_tool, hl, hs, errDict]⟩
      · exact ⟨[("files".toList, .list (fs.map .str))],
          by simp only [file_list_tool, hl, hs]⟩
  · rcases he : estimate_cost_for_files (dictGetD kvs ("files".toList) (.list []))
        (dictGetD kvs ("runtime_per_test_s".toList) (.float 3))
        (dictGetD kvs ("cost_per_second_usd".toList) (.float (1 / 2000))) with e | est
    · exact ⟨[("error".toList, .str (pyErrStr e))],
        by simp only [cost_estimator_tool, he, errDict]⟩
    · rcases hs : w.saveResult with e | u
      · exact ⟨[("error".toList, .str (pyErrStr e))],
          by simp only [cost_estimator_tool, he, hs, errDict]⟩
      · exact ⟨[("estimate".toList, est)],
          by simp only [cost_estimator_tool, he, hs]⟩
  · intro hn
    rcases hn with ⟨n, hn⟩
    rcases ho : run_model_via_ollama w with e | out
    · exact ⟨[("error".toList, .str (pyErrStr e))],
        by simp only [model_runner_tool, hn, ho, errDict]⟩
    · rcases hs : w.saveResult with e | u
      · exact ⟨[("error".toList, .str (pyErrStr e))],
          by simp only [model_runner_tool, hn, ho, hs, errDict]⟩
      · by_cases hj : pyTruthy (dictGetD kvs ("as_json".toList) (.bool false)) = true
        · rcases hp : json_loads out with _ | parsed
          · exact ⟨[("output".toList, .str out),
                ("json_error".toList, .str ("failed to parse JSON".toList))],
              by simp only [model_runner_tool, hn, ho, hs, hj, hp]; simp⟩
          · exact ⟨[("output".toList, .str out), ("json".toList, parsed)],
              by simp only [model_runner_tool, hn, ho, hs, hj, hp]; simp⟩
        · simp only [Bool.not_eq_true] at hj
          exact ⟨[("output".toList, .str out)],
            by simp only [model_runner_tool, hn, ho, hs, hj]; simp⟩
  · intro e he
    simp only [file_list_tool, he, errDict]

/-- Claim C3 witness: `file_reader` on a well-typed argument mapping in a
world whose collaborators succeed. -/
theorem C3_tools_no_raise_witness :
    ∃ out, file_reader_tool okWorld
      (.dict [("path".toList, .str ("a.py".toList))]) = .ok (.dict out) :=
  (C3_tools_no_raise okWorld [("path".toList, .str ("a.py".toList))]).1
    ⟨_, rfl⟩ (Or.inr ⟨_, rfl⟩)

/-- Claim C3 counterexample: `model_runner` called with the argument
mapping `{"timeout": "abc"}` raises `ValueError` out of the tool — the
coercion `int(args.get("timeout", 60))` happens BEFORE the `try` block —
so "never raises, any internal failure is converted to an error result" is
false as stated. -/
theorem C3_counterexample :
    model_runner_tool okWorld (.dict [("timeout".toList, .str ("abc".toList))])
      = .error (.valueError
          ("invalid literal for int() with base 10: ".toList ++ "abc".toList)) := rfl

/-- Claim C9: the Analyze stage is total, returns the file list unchanged,
accumulates one section per file in order, and a per-file model failure
contributes an `[Analysis Failed]` section for that file while every other
file still contributes its own section (the stage continues). -/
theorem C9_analyze_continues :
    ∀ (root tree : List Char) (files : List (List Char))
      (readF : List Char → List Char)
      (modelF : List Char → ℕ → Except InvokeErr (List Char)),
      (analyze_codebase root tree files readF modelF).1 = files
      ∧ (analyze_codebase root tree files readF modelF).2
          = analyzerHeader tree
            ++ (files.map (fun fp => analyzeSection fp
                  (resilient_invoke
                    (modelF (analyzeMsg fp (readF (root ++ '/' :: fp))))).result)).flatten
      ∧ (∀ fp, fp ∈ files →
          ∃ pre post, (analyze_codebase root tree files readF modelF).2
            = pre ++ analyzeSection fp
                (resilient_invoke
                  (modelF (analyzeMsg fp (readF (root ++ '/' :: fp))))).result ++ post)
      ∧ (∀ fp e, fp ∈ files →
          (resilient_invoke (modelF (analyzeMsg fp (readF (root ++ '/' :: fp))))).result
            = .retryError e →
          ∃ pre post, (analyze_codebase root tree files readF modelF).2
            = pre ++ ("## File: ".toList ++ fp ++ "\n[Analysis Failed]\n\n".toList)
              ++ post) := by
  intro root tree files readF modelF
  have h3 : ∀ fp, fp ∈ files →
      ∃ pre post, (analyze_codebase root tree files readF modelF).2
        = pre ++ analyzeSection fp
            (resilient_invoke
              (modelF (analyzeMsg fp (readF (root ++ '/' :: fp))))).result ++ post := by
    intro fp hfp
    obtain ⟨l1, l2, hl⟩ := List.append_of_mem hfp
    subst hl
    refine ⟨analyzerHeader tree
      ++ (l1.map (fun fp => analyzeSection fp
            (resilient_invoke
              (modelF (analyzeMsg fp (readF (root ++ '/' :: fp))))).result)).flatten,
      (l2.map (fun fp => analyzeSection fp
            (resilient_invoke
              (modelF (analyzeMsg fp (readF (root ++ '/' :: fp))))).result)).flatten, ?_⟩
    simp [analyze_codebase, List.flatten_append, List.append_assoc]
  refine ⟨rfl, rfl, h3, ?_⟩
  intro fp e hfp hres
  obtain ⟨pre, post, hh⟩ := h3 fp hfp
  refine ⟨pre, post, ?_⟩
  rw [hh, hres]
  simp [analyzeSection]

/-- Claim C9 witness: with two files where the model permanently fails on
`x.py`, the produced context contains the failed section for `x.py`. -/
theorem C9_analyze_continues_witness :
    ∃ pre post,
      (analyze_codebase ("repo".toList) ("tree".toList)
          ["x.py".toList, "y.py".toList] (fun _ => "print(1)".toList) xpyFailModel).2
        = pre ++ ("## File: ".toList ++ "x.py".toList
            ++ "\n[Analysis Failed]\n\n".toList) ++ post :=
  (C9_analyze_continues ("repo".toList) ("tree".toList)
      ["x.py".toList, "y.py".toList] (fun _ => "print(1)".toList)
      xpyFailModel).2.2.2 ("x.py".toList) (.backend ("connection reset".toList))
    (by simp) rfl

-- Helper lemmas about batch execution and the loop.

theorem execBatch_at_ceiling (tm : ToolMap) (m : ℕ) (calls : List PyVal) (done : ℕ)
    (h : m ≤ done) : execBatch tm m calls done = .ok ⟨done, [], []⟩ := by
  cases calls with
  | nil => rfl
  | cons c rest => simp only [execBatch, if_pos h]

theorem execBatch_done_mono (tm : ToolMap) (m : ℕ) :
    ∀ (calls : List PyVal) (done : ℕ) (br : BatchRes),
      execBatch tm m calls done = .ok br → done ≤ br.done := by
  intro calls
  induction calls with
  | nil =>
    intro done br h
    injection h with h
    subst h
    exact le_rfl
  | cons c rest ih =>
    intro done br h
    simp only [execBatch] at h
    split_ifs at h with hc
    · injection h with h
      subst h
      exact le_rfl
    · rcases hr : runToolCall tm c with e | pr
      · rw [hr] at h
        simp at h
      · rw [hr] at h
        obtain ⟨txt, tr'⟩ := pr
        rcases hb : execBatch tm m rest (done + 1) with e | r
        · rw [hb] at h
          simp at h
        · rw [hb] at h
          injection h with h
          subst h
          have := ih (done + 1) r hb
          simp only []
          omega

theorem execBatch_progress (tm : ToolMap) (m : ℕ) (c : PyVal) (rest : List PyVal)
    (done : ℕ) (br : BatchRes) (hd : done < m)
    (h : execBatch tm m (c :: rest) done = .ok br) : done < br.done := by
  simp only [execBatch, if_neg (not_le.mpr hd)] at h
  rcases hr : runToolCall tm c with e | pr
  · rw [hr] at h
    simp at h
  · rw [hr] at h
    obtain ⟨txt, tr'⟩ := pr
    rcases hb : execBatch tm m rest (done + 1) with e | r
    · rw [hb] at h
      simp at h
    · rw [hb] at h
      injection h with h
      subst h
      have := execBatch_done_mono tm m rest (done + 1) r hb
      simp only []
      omega

theorem dictGet?_of_any {kvs : List (List Char × PyVal)} {k : List Char}
    (h : (kvs.any fun p => p.1 = k) = true) : ∃ v, dictGet? kvs k = some v := by
  have hrev : ∃ p ∈ kvs.reverse, (decide (p.1 = k)) = true := by
    simp only [List.any_eq_true] at h
    obtain ⟨p, hp, hpk⟩ := h
    exact ⟨p, List.mem_reverse.mpr hp, hpk⟩
  have hsome : (kvs.reverse.find? (fun p => p.1 = k)).isSome := by
    rw [List.find?_isSome]
    exact hrev
  obtain ⟨y, hy⟩ := Option.isSome_iff_exists.mp hsome
  exact ⟨y.2, by simp only [dictGet?, hy, Option.map_some']⟩

theorem toolCallsBranch_none {kvs : List (List Char × PyVal)}
    (h : ∀ v, dictGet? kvs ("tool_calls".toList) = some v → ∀ xs, v ≠ .list xs) :
    toolCallsBranch (.dict kvs) = .ok Option.none := by
  by_cases h2 : (kvs.any fun p => p.1 = "tool_calls".toList) = true
  · obtain ⟨v, hv⟩ := dictGet?_of_any h2
    simp only [toolCallsBranch, pyContains, h2, pySubscript, hv]
    cases v with
    | list xs => exact absurd rfl (h (.list xs) hv xs)
    | none => rfl
    | bool b => rfl
    | int n => rfl
    | float q => rfl
    | str s => rfl
    | dict d => rfl
  · simp only [Bool.not_eq_true] at h2
    simp only [toolCallsBranch, pyContains, h2]

theorem extract_calls_none_of_dict {content : List Char}
    {kvs : List (List Char × PyVal)}
    (hparse : try_extract_json content = some (.dict kvs))
    (h1 : ∀ v, dictGet? kvs ("tool_call".toList) = some v → ∀ k2, v ≠ .dict k2)
    (h2 : ∀ v, dictGet? kvs ("tool_calls".toList) = some v → ∀ xs, v ≠ .list xs) :
    extract_calls content = .ok Option.none := by
  by_cases htr : pyTruthy (.dict kvs) = true
  · by_cases hc1 : (kvs.any fun p => p.1 = "tool_call".toList) = true
    · obtain ⟨v, hv⟩ := dictGet?_of_any hc1
      simp only [extract_calls, hparse]
      rw [if_neg (show ¬ ¬ pyTruthy (.dict kvs) = true by simp [htr])]
      simp only [pyContains, hc1, pySubscript, hv]
      cases v with
      | dict d => exact absurd rfl (h1 (.dict d) hv d)
      | none => exact toolCallsBranch_none h2
      | bool b => exact toolCallsBranch_none h2
      | int n => exact toolCallsBranch_none h2
      | float q => exact toolCallsBranch_none h2
      | str s => exact toolCallsBranch_none h2
      | list xs => exact toolCallsBranch_none h2
    · simp only [Bool.not_eq_true] at hc1
      simp only [extract_calls, hparse]
      rw [if_neg (show ¬ ¬ pyTruthy (.dict kvs) = true by simp [htr])]
      simp only [pyContains, hc1]
      exact toolCallsBranch_none h2
  · simp only [Bool.not_eq_true] at htr
    simp only [extract_calls, hparse]
    rw [if_pos (show ¬ pyTruthy (.dict kvs) = true by simp [htr])]

theorem loop_final_of_extract_none {tm : ToolMap} {model : Model}
    {msgs : List ConvItem} {m fuel : ℕ} (hf : 1 ≤ fuel)
    (h : extract_calls (model msgs) = .ok Option.none) :
    invoke_with_tools tm model msgs m fuel = some ⟨.ok (model msgs), [], 1⟩ := by
  obtain ⟨k, rfl⟩ : ∃ k, fuel = k + 1 := ⟨fuel - 1, by omega⟩
  simp only [invoke_with_tools, runLoop, loopIter, h]
  rfl

theorem loopIter_inl_done {tm : ToolMap} {model : Model} {m : ℕ} {st st' : LoopSt}
    {t : List (PyVal × PyVal)}
    (hne : extract_calls (model st.conv) ≠ .ok (some []))
    (h : loopIter tm model m st = .ok (.inl st', t)) :
    st.done < st'.done ∧ st'.done < m := by
  rcases he : extract_calls (model st.conv) with e | oc
  · simp only [loopIter, he] at h
    exact Except.noConfusion h
  · rcases oc with _ | calls
    · simp only [loopIter, he] at h
      simp at h
    · rcases hb : execBatch tm m calls st.done with e | br
      · simp only [loopIter, he, hb] at h
        exact Except.noConfusion h
      · simp only [loopIter, he, hb] at h
        split_ifs at h with hc
        · simp at h
        · simp only [Except.ok.injEq, Prod.mk.injEq, Sum.inl.injEq] at h
          obtain ⟨hst', _⟩ := h
          have hdone : st'.done = br.done := by rw [← hst']
          cases calls with
          | nil => exact absurd he (by simpa using hne)
          | cons c rest =>
            by_cases hdm : st.done < m
            · have hp := execBatch_progress tm m c rest st.done br hdm hb
              refine ⟨by omega, by omega⟩
            · have hceil := execBatch_at_ceiling tm m (c :: rest) st.done (not_lt.mp hdm)
              rw [hceil] at hb
              injection hb with hb
              rw [← hb] at hc
              simp at hc
              omega

theorem runLoop_terminates_aux (tm : ToolMap) (model : Model) (m : ℕ)
    (hne : ∀ conv, extract_calls (model conv) ≠ .ok (some [])) :
    ∀ (k : ℕ) (st : LoopSt) (mc : ℕ) (tr : List (PyVal × PyVal)),
      st.done ≤ m → m + 1 - st.done ≤ k →
      ∃ out, runLoop tm model m k st mc tr = some out ∧ out.modelCalls ≤ mc + k := by
  intro k
  induction k with
  | zero =>
    intro st mc tr hd hk
    omega
  | succ k ih =>
    intro st mc tr hd hk
    rcases hit : loopIter tm model m st with e | res
    · exact ⟨⟨.error e, tr, mc + 1⟩, by simp only [runLoop, hit],
        by show mc + 1 ≤ mc + (k + 1); omega⟩
    · rcases res with ⟨sr, t⟩
      rcases sr with st' | r
      · obtain ⟨hprog, hlt⟩ := loopIter_inl_done (hne st.conv) hit
        obtain ⟨out, hrun, hmc⟩ := ih st' (mc + 1) (tr ++ t) (le_of_lt hlt) (by omega)
        exact ⟨out, by simp only [runLoop, hit, hrun], by omega⟩
      · exact ⟨⟨.ok r, tr ++ t, mc + 1⟩, by simp only [runLoop, hit],
          by show mc + 1 ≤ mc + (k + 1); omega⟩

theorem emptyBatch_inl (conv : List ConvItem) :
    ∃ conv', loopIter [] emptyBatchModel 3 ⟨conv, 0⟩ = .ok (.inl ⟨conv', 0⟩, []) :=
  ⟨_, rfl⟩

/-- Claim C1 (amended): the Tool-Calling Loop terminates — within at most
`max_tool_calls + 1` model invocations — for every tool registry, initial
conversation and ceiling, PROVIDED the backend never answers with an EMPTY
tool-call batch (e.g. `{"tool_calls": []}`); on such batches the counter
does not advance and the loop re-invokes the model forever (see the
counterexample), so the unconditional termination claim is false. -/
theorem C1_loop_terminates_nonempty_batches :
    ∀ (tm : ToolMap) (model : Model) (messages : List ConvItem) (maxCalls : ℕ),
      (∀ conv, extract_calls (model conv) ≠ .ok (some [])) →
      ∃ fuel out, invoke_with_tools tm model messages maxCalls fuel = some out
        ∧ out.modelCalls ≤ maxCalls + 1 := by
  intro tm model msgs m hne
  obtain ⟨out, hrun, hmc⟩ :=
    runLoop_terminates_aux tm model m hne (m + 1) ⟨msgs, 0⟩ 0 [] (Nat.zero_le m)
      (by omega)
  exact ⟨m + 1, out, hrun, by simpa using hmc⟩

/-- Claim C1 witness: a backend that always answers in prose terminates on
the first iteration. -/
theorem C1_loop_terminates_nonempty_batches_witness :
    ∃ fuel out, invoke_with_tools [] proseModel [] 3 fuel = some out
      ∧ out.modelCalls ≤ 3 + 1 :=
  C1_loop_terminates_nonempty_batches [] proseModel [] 3
    (fun _ h => Option.noConfusion (Except.ok.inj h))

/-- Claim C1 counterexample: against a backend that always answers
`{"tool_calls": []}`, the loop executes zero tools, never advances the
counter, and re-invokes the model forever: no finite fuel makes the run
return, refuting "terminates for every model backend and every initial
conversation". -/
theorem C1_counterexample : ¬ loopTerminates [] emptyBatchModel [] 3 := by
  have haux : ∀ (fuel : ℕ) (st : LoopSt) (mc : ℕ) (tr : List (PyVal × PyVal)),
      st.done = 0 → runLoop [] emptyBatchModel 3 fuel st mc tr = Option.none := by
    intro fuel
    induction fuel with
    | zero => intro st mc tr _; rfl
    | succ k ih =>
      intro st mc tr hd
      obtain ⟨conv, done⟩ := st
      simp only [] at hd
      subst hd
      obtain ⟨conv', hit⟩ := emptyBatch_inl conv
      simp only [runLoop, hit]
      exact ih ⟨conv', 0⟩ (mc + 1) (tr ++ []) rfl
  rintro ⟨fuel, out, hout⟩
  rw [show invoke_with_tools [] emptyBatchModel [] 3 fuel
      = runLoop [] emptyBatchModel 3 fuel ⟨[], 0⟩ 0 [] from rfl] at hout
  rw [haux fuel ⟨[], 0⟩ 0 [] rfl] at hout
  exact Option.noConfusion hout

/-- Claim C2: ceiling enforcement for tool-call batches.  (a) If the global
counter has already reached the ceiling before a batch starts, zero entries
of the batch are processed (no texts, no executions, counter unchanged).
(b) Entries beyond the ceiling are silently dropped: the batch behaves
exactly like its truncation to the first `ceiling - counter` entries.
(c) When the ceiling is reached by a batch, the loop returns the pending
tool-requesting model response as-is, after a single model invocation, with
exactly the executed-tool trace of that batch.  (d) The default ceiling is
3. -/
theorem C2_ceiling_enforcement :
    (∀ (tm : ToolMap) (m : ℕ) (calls : List PyVal) (done : ℕ), m ≤ done →
        execBatch tm m calls done = .ok ⟨done, [], []⟩)
    ∧ (∀ (tm : ToolMap) (m : ℕ) (calls : List PyVal) (done : ℕ),
        execBatch tm m calls done = execBatch tm m (calls.take (m - done)) done)
    ∧ (∀ (tm : ToolMap) (model : Model) (msgs : List ConvItem) (m : ℕ)
        (calls : List PyVal) (br : BatchRes) (fuel : ℕ),
        extract_calls (model msgs) = .ok (some calls) →
        execBatch tm m calls 0 = .ok br →
        m ≤ br.done →
        1 ≤ fuel →
        invoke_with_tools tm model msgs m fuel = some ⟨.ok (model msgs), br.trace, 1⟩)
    ∧ defaultMaxToolCalls = 3 := by
  refine ⟨execBatch_at_ceiling, ?_, ?_, rfl⟩
  · intro tm m calls
    induction calls with
    | nil => intro done; simp [List.take_nil]
    | cons c rest ih =>
      intro done
      by_cases hcap : m ≤ done
      · rw [execBatch_at_ceiling tm m (c :: rest) done hcap,
          Nat.sub_eq_zero_of_le hcap]
        rfl
      · have hstep : m - done = (m - (done + 1)) + 1 := by omega
        rw [hstep]
        simp only [List.take_succ_cons, execBatch, if_neg hcap]
        simp only [ih (done + 1)]
  · intro tm model msgs m calls br fuel hext hbatch hceil hfuel
    obtain ⟨k, rfl⟩ : ∃ k, fuel = k + 1 := ⟨fuel - 1, by omega⟩
    simp only [invoke_with_tools, runLoop, loopIter, hext, hbatch, if_pos hceil]
    rfl

/-- Claim C2 witness: the spec scenario — ceiling 1, the model requests two
`file_list` calls in one batch; only the first executes, the second is
dropped, and the loop returns the tool-requesting response unchanged after
one model invocation. -/
theorem C2_ceiling_enforcement_witness :
    invoke_with_tools (build_tool_map okWorld) twoCallModel [] 1 1
      = some ⟨.ok (twoCallModel []), [(.str ("file_list".toList), .dict [])], 1⟩ :=
  C2_ceiling_enforcement.2.2.1 (build_tool_map okWorld) twoCallModel [] 1
    [.dict [("name".toList, .str ("file_list".toList)), ("args".toList, .dict [])],
     .dict [("name".toList, .str ("file_list".toList)), ("args".toList, .dict [])]]
    ⟨1, ["[Tool file_list result] \x7b\"files\": []\x7d".toList],
      [(.str ("file_list".toList), .dict [])]⟩ 1
    rfl rfl le_rfl le_rfl

/-- Claim C6 (amended): whenever extraction finds no tool-call batch in the
model response — no parse, a falsy parse, or a dict whose `tool_call` value
is not a mapping and whose `tool_calls` value is not a list — the loop
returns exactly that response, executes zero tools, and invokes the model
exactly once (no retry).  (A response whose whole text parses as a truthy
number or boolean instead raises `TypeError`; see the counterexample.) -/
theorem C6_no_tool_call_final :
    ∀ (tm : ToolMap) (model : Model) (msgs : List ConvItem) (m fuel : ℕ),
      1 ≤ fuel →
      (try_extract_json (model msgs) = Option.none
        ∨ (∃ v, try_extract_json (model msgs) = some v ∧ pyTruthy v = false)
        ∨ (∃ kvs, try_extract_json (model msgs) = some (.dict kvs)
            ∧ (∀ v, dictGet? kvs ("tool_call".toList) = some v → ∀ k2, v ≠ .dict k2)
            ∧ (∀ v, dictGet? kvs ("tool_calls".toList) = some v → ∀ xs, v ≠ .list xs))) →
      invoke_with_tools tm model msgs m fuel = some ⟨.ok (model msgs), [], 1⟩ := by
  intro tm model msgs m fuel hfuel hcase
  apply loop_final_of_extract_none hfuel
  rcases hcase with h1 | ⟨v, hv, hfalse⟩ | ⟨kvs, hv, hkc, hkl⟩
  · simp only [extract_calls, h1]
  · simp only [extract_calls, hv]
    rw [if_pos (show ¬ pyTruthy v = true by simp [hfalse])]
  · exact extract_calls_none_of_dict hv hkc hkl

/-- Claim C6 witness: a prose response is returned as-is with zero tool
executions and one model invocation. -/
theorem C6_no_tool_call_final_witness :
    invoke_with_tools [] proseModel [] 3 1 = some ⟨.ok (proseModel []), [], 1⟩ :=
  C6_no_tool_call_final [] proseModel [] 3 1 le_rfl (Or.inl rfl)

/-- Claim C6 counterexample: a response whose content is the bare number
`5` contains no embedded structured object, yet the loop RAISES `TypeError`
(`"tool_call" in 5` on a non-container) instead of returning the response —
so the unconditional claim is false. -/
theorem C6_counterexample :
    invoke_with_tools [] numericModel [] 3 1
      = some ⟨.error (.typeError ("argument is not iterable".toList)), [], 1⟩
    ∧ try_extract_json ("5".toList) = some (.int 5) := ⟨rfl, rfl⟩

theorem lookupTool_ok_of_hashable {tm : ToolMap} {name : PyVal}
    (h : pyHashable name = true) : ∃ o, lookupTool tm name = .ok o := by
  cases name with
  | list xs => simp [pyHashable] at h
  | dict kvs => simp [pyHashable] at h
  | str s => exact ⟨_, rfl⟩
  | none => exact ⟨_, rfl⟩
  | bool b => exact ⟨_, rfl⟩
  | int n => exact ⟨_, rfl⟩
  | float q => exact ⟨_, rfl⟩

/-- Claim C10 (amended): processing a batch of tool-call entries that are
mappings whose `name` value is hashable (not a list or dict), with the
counter at or below the ceiling, never raises, and each processed entry —
regardless of its outcome, including unknown tool names (which yield an
error result without executing anything) and tools that raise internally
(caught and converted) — increments the counter by exactly one: the final
counter is `min ceiling (counter + batch size)` and equals the counter plus
the number of result texts produced.  (An entry with an unhashable name
instead raises `TypeError` out of the loop without incrementing; see the
counterexample.) -/
theorem C10_batch_counter :
    ∀ (tm : ToolMap) (m : ℕ) (calls : List PyVal) (done : ℕ),
      done ≤ m →
      (∀ c ∈ calls, ∃ kvs, c = PyVal.dict kvs
        ∧ pyHashable (dictGetD kvs ("name".toList) .none) = true) →
      ∃ br, execBatch tm m calls done = .ok br
        ∧ br.done = min m (done + calls.length)
        ∧ br.texts.length = min (m - done) calls.length
        ∧ br.done = done + br.texts.length := by
  intro tm m calls
  induction calls with
  | nil =>
    intro done hdm _
    refine ⟨⟨done, [], []⟩, rfl, ?_, ?_, ?_⟩ <;> simp [Nat.min_eq_right hdm]
  | cons c rest ih =>
    intro done hdm hdict
    obtain ⟨kvs, hc, hname⟩ := hdict c (by simp)
    by_cases hcap : m ≤ done
    · have hde : done = m := le_antisymm hdm hcap
      refine ⟨⟨done, [], []⟩, execBatch_at_ceiling tm m (c :: rest) done hcap,
        ?_, ?_, ?_⟩ <;> simp [hde]
    · push_neg at hcap
      obtain ⟨br', hb', h1, h2, h3⟩ :=
        ih (done + 1) (by omega) (fun x hx => hdict x (by simp [hx]))
      subst hc
      have hrun : ∃ txt tr', runToolCall tm (.dict kvs) = .ok (txt, tr') := by
        obtain ⟨o, ho⟩ := @lookupTool_ok_of_hashable tm _ hname
        simp only [runToolCall, ho]
        rcases o with _ | fn
        · exact ⟨_, _, rfl⟩
        · exact ⟨_, _, rfl⟩
      obtain ⟨txt, tr', hr⟩ := hrun
      refine ⟨⟨br'.done, txt :: br'.texts, tr' ++ br'.trace⟩, ?_, ?_, ?_, ?_⟩
      · simp only [execBatch, if_neg (not_le.mpr hcap), hr, hb']
      · simp only []
        rw [h1]
        simp only [List.length_cons]
        omega
      · simp only [List.length_cons]
        rw [h2]
        omega
      · simp only [List.length_cons]
        omega

/-- Claim C10 witness: a two-entry batch naming an unknown tool and a tool
that raises internally advances the counter by exactly two. -/
theorem C10_batch_counter_witness :
    ∃ br, execBatch boomToolMap 3 mixedCalls 0 = .ok br
      ∧ br.done = min 3 (0 + mixedCalls.length)
      ∧ br.texts.length = min (3 - 0) mixedCalls.length
      ∧ br.done = 0 + br.texts.length :=
  C10_batch_counter boomToolMap 3 mixedCalls 0 (by omega)
    (by
      intro c hc
      simp only [mixedCalls, List.mem_cons, List.not_mem_nil, or_false] at hc
      rcases hc with rfl | rfl
      · exact ⟨_, rfl, rfl⟩
      · exact ⟨_, rfl, rfl⟩)

/-- Claim C10 counterexample: a batch entry that IS a mapping but whose
`name` value is a list — legal JSON in a `tool_calls` array — does not
yield an `{error}` result with a counter increment as the claim states:
Python hashes the name for the `name not in tool_map` membership test
(llm.py 185, outside the `try` block), which raises an uncaught
`TypeError: unhashable type` that aborts the batch with no increment. -/
theorem C10_counterexample :
    execBatch boomToolMap 3 unhashableNameCalls 0
      = .error (.typeError ("unhashable type: list".toList)) := rfl

end AiTester
